import Mathlib

/-!
Shallow embedding of the `yuanxuejpjp/time_manage` repository, which bundles
two applications:

* System A — a stock screener (`src/app.py`): watchlist persistence on a flat
  file, per-ticker metric derivation (PEG fallback, RSI(14) with Wilder
  smoothing), and a 7-step screening engine with status/color classification.
* System B — the "TimeMaster" productivity web app (`src/models.py`,
  `src/routes/*.py`): a points/rewards economy (`routes/progress.py`), AI
  schedule generation with an exact-match conflict check and a date-header
  parser (`routes/schedule.py`), per-user ownership-scoped lookups throughout
  the routes, and a legacy hours-based reward subsystem (`routes/reward.py`).

Numeric values from the Python source are embedded as rationals (`ℚ`);
database state is embedded as explicit lists of rows and the route handlers
as state-passing functions.
-/

namespace TimeManage

/-! ## System A: stock data and the screening engine (`src/app.py`)

`StockData` mirrors the dictionary returned by `get_stock_data`: every field
consumed by the screening checks may be absent (`None` in Python). -/

structure StockData where
  peg_ratio : Option ℚ
  debt_to_equity : Option ℚ
  total_revenue : Option ℚ
  forward_pe : Option ℚ
  revenue_growth : Option ℚ
  eps_growth : Option ℚ
  free_cash_flow : Option ℚ
  fcf_yield : Option ℚ
  net_cash : Option ℚ
  deriving Repr, DecidableEq

/-- `check_step1` (app.py:293): Forward PEG ≤ 1.2, vacuously true when PEG
is unavailable. -/
def check_step1 (data : StockData) : Bool :=
  match data.peg_ratio with
  | none => true
  | some peg => peg ≤ 12/10

/-- `check_step2` (app.py:301): debt-to-equity < 50, absent counts as fail. -/
def check_step2 (data : StockData) : Bool :=
  match data.debt_to_equity with
  | none => false
  | some d_e => d_e < 50

/-- `check_step3` (app.py:306): TTM revenue ≥ 50e9. -/
def check_step3 (data : StockData) : Bool :=
  match data.total_revenue with
  | none => false
  | some revenue => 50000000000 ≤ revenue

/-- `check_step4` (app.py:311): forward P/E ≤ 25 and revenue growth ≥ 0.15. -/
def check_step4 (data : StockData) : Bool :=
  (match data.forward_pe with
   | none => false
   | some pe => pe ≤ 25) &&
  (match data.revenue_growth with
   | none => false
   | some growth => 15/100 ≤ growth)

/-- `check_step5` (app.py:319): EPS growth × 100 ≥ 20, absent counts as fail. -/
def check_step5 (data : StockData) : Bool :=
  match data.eps_growth with
  | none => false
  | some eps => 20 ≤ eps * 100

/-- `check_step6` (app.py:327): free cash flow > 0 and FCF yield ≥ 2.5. -/
def check_step6 (data : StockData) : Bool :=
  (match data.free_cash_flow with
   | none => false
   | some fcf => 0 < fcf) &&
  (match data.fcf_yield with
   | none => false
   | some y => 25/10 ≤ y)

/-- `check_step7` (app.py:335): net cash > 0. -/
def check_step7 (data : StockData) : Bool :=
  match data.net_cash with
  | none => false
  | some nc => 0 < nc

/-- The seven screening steps in order, as in `run_screening` (app.py:372). -/
def screeningSteps (data : StockData) : List Bool :=
  [check_step1 data, check_step2 data, check_step3 data, check_step4 data,
   check_step5 data, check_step6 data, check_step7 data]

/-- `passed_count` in `run_screening`: number of steps that returned true. -/
def passedCount (data : StockData) : Nat :=
  (screeningSteps data).count true

/-- The status/color classification at the end of `run_screening`
(app.py:388-396). -/
def screeningStatus (data : StockData) : String × String :=
  if passedCount data = 7 then ("强烈推荐", "#90EE90")
  else if 5 ≤ passedCount data then ("观察中", "#FFFF99")
  else ("不推荐", "#FFFFFF")

/-- The concrete snapshot of claim C5: PEG absent, debt/equity 30,
revenue 60e9, forward P/E 20, revenue growth 0.20, EPS growth 0.25,
positive FCF with yield 3.0, positive net cash. -/
def c5Snapshot : StockData :=
  { peg_ratio := none
    debt_to_equity := some 30
    total_revenue := some 60000000000
    forward_pe := some 20
    revenue_growth := some (20/100)
    eps_growth := some (25/100)
    free_cash_flow := some 1000000
    fcf_yield := some 3
    net_cash := some 500000 }

/-! ## System A: PEG fallback derivation (`get_stock_data`, app.py:240-254) -/

/-- The PEG computation in `get_stock_data`: use the source-provided PEG when
present; otherwise, when forward P/E and a raw EPS-growth figure are both
available, normalize growth to a percentage (×100 when its magnitude is < 1)
and derive PEG = forward_pe / growth_percent only when that percentage is
positive. -/
def derivePeg (peg_ratio forward_pe eps_growth_raw : Option ℚ) : Option ℚ :=
  match peg_ratio with
  | some p => some p
  | none =>
    match forward_pe, eps_growth_raw with
    | some pe, some g =>
      let pct := if |g| < 1 then g * 100 else g
      if 0 < pct then some (pe / pct) else none
    | _, _ => none

/-- Variant of `c5Snapshot` failing exactly steps 2 and 3 (5 of 7 passed). -/
def c5SnapshotFiveOfSeven : StockData :=
  { c5Snapshot with debt_to_equity := none, total_revenue := none }

/-- Variant of `c5Snapshot` failing steps 2, 3 and 5 (4 of 7 passed). -/
def c5SnapshotFourOfSeven : StockData :=
  { c5Snapshot with debt_to_equity := none, total_revenue := none,
                    eps_growth := none }

/-- C5: the snapshot with PEG absent, debt-to-equity 30, TTM revenue 60e9,
forward P/E 20, revenue growth 0.20, EPS growth 0.25, positive FCF with
yield 3.0 and positive net cash passes all 7 checks (the PEG check vacuously)
and is classified "强烈推荐" with color #90EE90; in general a pass count of
5 or 6 yields "观察中"/#FFFF99 and a count below 5 yields "不推荐"/#FFFFFF.
First, the evaluation of the seven checks at the concrete snapshots. -/
theorem stepsOfC5Snapshot :
    screeningSteps c5Snapshot = [true, true, true, true, true, true, true] := by
  norm_num [screeningSteps, check_step1, check_step2, check_step3, check_step4,
    check_step5, check_step6, check_step7, c5Snapshot]

theorem stepsOfC5FiveOfSeven :
    screeningSteps c5SnapshotFiveOfSeven =
      [true, false, false, true, true, true, true] := by
  norm_num [screeningSteps, check_step1, check_step2, check_step3, check_step4,
    check_step5, check_step6, check_step7, c5SnapshotFiveOfSeven, c5Snapshot]

theorem stepsOfC5FourOfSeven :
    screeningSteps c5SnapshotFourOfSeven =
      [true, false, false, true, false, true, true] := by
  norm_num [screeningSteps, check_step1, check_step2, check_step3, check_step4,
    check_step5, check_step6, check_step7, c5SnapshotFourOfSeven, c5Snapshot]

/-- C5: the snapshot with PEG absent, debt-to-equity 30, TTM revenue 60e9,
forward P/E 20, revenue growth 0.20, EPS growth 0.25, positive FCF with
yield 3.0 and positive net cash passes all 7 checks (the PEG check vacuously)
and is classified "强烈推荐" with color #90EE90; in general a pass count of
5 or 6 yields "观察中"/#FFFF99 and a count below 5 yields "不推荐"/#FFFFFF. -/
theorem c5_screening_classification :
    (screeningSteps c5Snapshot = [true, true, true, true, true, true, true] ∧
      passedCount c5Snapshot = 7 ∧
      screeningStatus c5Snapshot = ("强烈推荐", "#90EE90")) ∧
    (∀ d : StockData, passedCount d = 5 ∨ passedCount d = 6 →
      screeningStatus d = ("观察中", "#FFFF99")) ∧
    (∀ d : StockData, passedCount d < 5 →
      screeningStatus d = ("不推荐", "#FFFFFF")) := by
  have hc : passedCount c5Snapshot = 7 := by
    rw [passedCount, stepsOfC5Snapshot]; rfl
  refine ⟨⟨stepsOfC5Snapshot, hc, ?_⟩, ?_, ?_⟩
  · rw [screeningStatus, hc]; norm_num
  · intro d h
    unfold screeningStatus
    rcases h with h | h <;> rw [h] <;> norm_num
  · intro d h
    unfold screeningStatus
    rw [if_neg (by omega), if_neg (by omega)]

/-- Witness for C5: the general classification branches applied at concrete
snapshots passing 5 and 4 of the 7 steps respectively. -/
theorem c5_screening_classification_witness :
    screeningStatus c5SnapshotFiveOfSeven = ("观察中", "#FFFF99") ∧
    screeningStatus c5SnapshotFourOfSeven = ("不推荐", "#FFFFFF") :=
  ⟨c5_screening_classification.2.1 c5SnapshotFiveOfSeven
      (Or.inl (by rw [passedCount, stepsOfC5FiveOfSeven]; rfl)),
   c5_screening_classification.2.2 c5SnapshotFourOfSeven
      (by rw [passedCount, stepsOfC5FourOfSeven]; norm_num)⟩

/-- C8: with no source PEG, forward P/E 20 and raw EPS growth 0.10
(fractional form) the derived PEG is 20/10 = 2; with raw growth 15
(already-percent form) it is 20/15 = 4/3; and no PEG is derived when the
normalized growth percentage is not positive. -/
theorem c8_peg_fallback :
    derivePeg none (some 20) (some (1/10)) = some 2 ∧
    derivePeg none (some 20) (some 15) = some (4/3) ∧
    (∀ pe g : ℚ, (if |g| < 1 then g * 100 else g) ≤ 0 →
      derivePeg none (some pe) (some g) = none) := by
  refine ⟨by norm_num [derivePeg, abs_of_pos], by norm_num [derivePeg, abs_of_pos], ?_⟩
  intro pe g h
  simp only [derivePeg]
  exact if_neg (not_lt.mpr h)

/-- Witness for C8: the no-derivation branch at forward P/E 20 and raw EPS
growth 0 (normalized percentage 0, not positive). -/
theorem c8_peg_fallback_witness :
    derivePeg none (some 20) (some 0) = none :=
  c8_peg_fallback.2.2 20 0 (by norm_num)

/-! ## System A: watchlist persistence (`src/app.py` lines 30-77)

Python strings are embedded as `List Char`; the watchlist file state is
either absent, unreadable (an exception on open/read), or present with some
raw content. -/

/-- Python `str.strip()`: drop whitespace from both ends. -/
def pyStrip (s : List Char) : List Char :=
  ((s.dropWhile Char.isWhitespace).reverse.dropWhile Char.isWhitespace).reverse

/-- Python `str.split(sep)` for a one-character separator: split at every
occurrence, keeping empty parts (`''.split(',') == ['']`). -/
def pySplit (c : Char) : List Char → List (List Char)
  | [] => [[]]
  | x :: xs =>
    if x = c then [] :: pySplit c xs
    else
      match pySplit c xs with
      | [] => [[x]]
      | p :: ps => (x :: p) :: ps

/-- Python `sep.join(parts)` for a one-character separator. -/
def pyJoin (c : Char) : List (List Char) → List Char
  | [] => []
  | [p] => p
  | p :: ps => p ++ c :: pyJoin c ps

/-- `DEFAULT_WATCHLIST` (app.py:30). -/
def DEFAULT_WATCHLIST : List (List Char) :=
  ["NVDA".toList, "MSFT".toList, "GOOGL".toList, "AMZN".toList,
   "META".toList, "AAPL".toList]

/-- The state of `watchlist.txt` as observed by `load_watchlist_from_file`:
missing (`os.path.exists` false), unreadable (open/read raises), or present
with raw content. -/
inductive FileState
  | absent
  | unreadable
  | present (content : List Char)
  deriving Repr, DecidableEq

/-- `load_watchlist_from_file` (app.py:39-49): when the file exists, read and
strip it and split the content on commas when non-empty; in every other case
(empty stripped content, missing file, read error) return a copy of
`DEFAULT_WATCHLIST`. -/
def load_watchlist_from_file : FileState → List (List Char)
  | .absent => DEFAULT_WATCHLIST
  | .unreadable => DEFAULT_WATCHLIST
  | .present raw =>
    let content := pyStrip raw
    if content ≠ [] then pySplit ',' content else DEFAULT_WATCHLIST

/-- `save_watchlist_to_file` (app.py:51-57): overwrite the file with the
comma-joined list; the resulting file state. -/
def save_watchlist_to_file (watchlist : List (List Char)) : FileState :=
  .present (pyJoin ',' watchlist)

/-- C4 (code-bug evidence): with the watchlist file absent — and likewise
unreadable — `load_watchlist_from_file` returns the hardcoded 6-symbol
default list, not the empty list required by the claim and by the source's
own comments (app.py:59-61: "不在启动时自动设置默认值" / "如果文件不存在则用空列表"). -/
theorem c4_load_absent_returns_default :
    load_watchlist_from_file .absent = DEFAULT_WATCHLIST ∧
    load_watchlist_from_file .unreadable = DEFAULT_WATCHLIST ∧
    DEFAULT_WATCHLIST ≠ [] ∧
    DEFAULT_WATCHLIST =
      ["NVDA".toList, "MSFT".toList, "GOOGL".toList, "AMZN".toList,
       "META".toList, "AAPL".toList] :=
  ⟨rfl, rfl, by decide, rfl⟩

theorem pySplit_no_sep {c : Char} : ∀ {s : List Char}, c ∉ s → pySplit c s = [s]
  | [], _ => rfl
  | x :: xs, h => by
    have hx : ¬x = c := fun hxc => h (hxc ▸ List.mem_cons_self x xs)
    have ih := @pySplit_no_sep c xs fun hm => h (List.mem_cons_of_mem x hm)
    simp only [pySplit, if_neg hx, ih]

theorem pySplit_append {c : Char} :
    ∀ {x : List Char}, c ∉ x → ∀ t : List Char,
      pySplit c (x ++ c :: t) = x :: pySplit c t
  | [], _, t => by simp [pySplit]
  | a :: x', h, t => by
    have ha : ¬a = c := fun hac => h (hac ▸ List.mem_cons_self a x')
    have ih := @pySplit_append c x'
      (fun hm => h (List.mem_cons_of_mem a hm)) t
    simp only [List.cons_append, pySplit, if_neg ha, List.append_eq, ih]

theorem pySplit_pyJoin (c : Char) :
    ∀ l : List (List Char), l ≠ [] → (∀ s ∈ l, c ∉ s) →
      pySplit c (pyJoin c l) = l
  | [], h, _ => absurd rfl h
  | [x], _, hs => by
    simp only [pyJoin]
    exact pySplit_no_sep (hs x (List.mem_singleton_self x))
  | x :: y :: rest, _, hs => by
    have hx : c ∉ x := hs x (List.mem_cons_self x _)
    have ih := pySplit_pyJoin c (y :: rest) (List.cons_ne_nil y rest)
      fun s hsm => hs s (List.mem_cons_of_mem x hsm)
    simp only [pyJoin, pySplit_append hx, ih]

/-- C9 counterexample: `[""]` is a non-empty list whose single symbol
contains no comma, yet saving it writes an empty file and loading returns
the hardcoded 6-symbol default, not `[""]`. -/
theorem c9_roundtrip_counterexample :
    load_watchlist_from_file (save_watchlist_to_file [[]]) = DEFAULT_WATCHLIST ∧
    load_watchlist_from_file (save_watchlist_to_file [[]]) ≠ [[]] ∧
    ([[]] : List (List Char)) ≠ [] ∧
    ',' ∉ ([] : List Char) := by
  refine ⟨rfl, by decide, by decide, by decide⟩

/-- C9 (amended): save-then-load is an identity round-trip for every
non-empty list of comma-free symbols whose comma-join is non-empty and
unchanged by whitespace stripping; saving the empty list writes an empty
file; and loading an existing file whose stripped content is empty returns
the hardcoded 6-symbol default list. -/
theorem c9_roundtrip_amended :
    (∀ l : List (List Char), l ≠ [] → (∀ s ∈ l, ',' ∉ s) →
      pyStrip (pyJoin ',' l) = pyJoin ',' l → pyJoin ',' l ≠ [] →
      load_watchlist_from_file (save_watchlist_to_file l) = l) ∧
    save_watchlist_to_file [] = .present [] ∧
    (∀ raw : List Char, pyStrip raw = [] →
      load_watchlist_from_file (.present raw) = DEFAULT_WATCHLIST) := by
  refine ⟨?_, rfl, ?_⟩
  · intro l hne hfree hstrip hjoin
    simp only [save_watchlist_to_file, load_watchlist_from_file, hstrip,
      if_pos hjoin]
    exact pySplit_pyJoin ',' l hne hfree
  · intro raw hraw
    simp [load_watchlist_from_file, hraw]

/-- Witness for C9 (amended): the round-trip at `["NVDA", "TSLA"]` and the
default fallback at a whitespace-only file. -/
theorem c9_roundtrip_amended_witness :
    load_watchlist_from_file
        (save_watchlist_to_file ["NVDA".toList, "TSLA".toList]) =
      ["NVDA".toList, "TSLA".toList] ∧
    load_watchlist_from_file (.present [' ']) = DEFAULT_WATCHLIST :=
  ⟨c9_roundtrip_amended.1 ["NVDA".toList, "TSLA".toList]
      (by decide) (by decide) (by decide) (by decide),
   c9_roundtrip_amended.2.2 [' '] (by decide)⟩

/-! ## System A: RSI(14) with Wilder smoothing (`calculate_rsi`, app.py:162-207)

The network retrieval is outside the embedding; the arithmetic core operates
on the list of closing prices with the fixed period 14. -/

/-- `deltas = closes[1:] - closes[:-1]` (app.py:178). -/
def priceDeltas (closes : List ℚ) : List ℚ :=
  List.zipWith (fun next prev => next - prev) closes.tail closes

/-- `gains`: negative changes clipped to 0 (app.py:181-183). -/
def rsiGains (closes : List ℚ) : List ℚ :=
  (priceDeltas closes).map fun d => if d < 0 then 0 else d

/-- `losses`: positive changes clipped to 0, then negated to positive
magnitudes (app.py:184-185). -/
def rsiLosses (closes : List ℚ) : List ℚ :=
  (priceDeltas closes).map fun d => if 0 < d then 0 else -d

/-- The Wilder smoothing loop `avg = (avg*13 + new)/14` (app.py:191-193). -/
def wilderSmooth (init : ℚ) (rest : List ℚ) : ℚ :=
  rest.foldl (fun avg x => (avg * 13 + x) / 14) init

/-- Final smoothed average gain: seed with the mean of the first 14 gains,
then fold the Wilder update over the remaining gains (app.py:188-192). -/
def avgGainFinal (closes : List ℚ) : ℚ :=
  wilderSmooth (((rsiGains closes).take 14).sum / 14) ((rsiGains closes).drop 14)

/-- Final smoothed average loss (app.py:189-193). -/
def avgLossFinal (closes : List ℚ) : ℚ :=
  wilderSmooth (((rsiLosses closes).take 14).sum / 14) ((rsiLosses closes).drop 14)

/-- Python `round()` to an integer: round half to even. -/
def roundHalfEven (q : ℚ) : ℤ :=
  if q - ⌊q⌋ < 1/2 then ⌊q⌋
  else if 1/2 < q - ⌊q⌋ then ⌊q⌋ + 1
  else if ⌊q⌋ % 2 = 0 then ⌊q⌋ else ⌊q⌋ + 1

/-- Python `round(x, 1)` (app.py:201). -/
def round1 (q : ℚ) : ℚ := (roundHalfEven (q * 10) : ℚ) / 10

/-- The arithmetic core of `calculate_rsi` (app.py:168-204): at least
period+1 = 15 closes are required, the final averages use Wilder smoothing,
`avg_loss == 0` yields RSI 100, otherwise RSI = 100 - 100/(1+RS) with
RS = avg_gain/avg_loss; the result is rounded to 1 decimal. -/
def calculate_rsi (closes : List ℚ) : Option ℚ :=
  if closes.length < 15 then none
  else
    let avg_gain := avgGainFinal closes
    let avg_loss := avgLossFinal closes
    let rsi := if avg_loss = 0 then 100
               else 100 - 100 / (1 + avg_gain / avg_loss)
    some (round1 rsi)

theorem rsiLosses_all_zero {closes : List ℚ}
    (h : ∀ d ∈ priceDeltas closes, 0 ≤ d) :
    ∀ x ∈ rsiLosses closes, x = 0 := by
  intro x hx
  simp only [rsiLosses, List.mem_map] at hx
  obtain ⟨d, hd, rfl⟩ := hx
  have hd0 := h d hd
  by_cases hpos : 0 < d
  · simp [hpos]
  · have : d = 0 := le_antisymm (not_lt.mp hpos) hd0
    simp [this]

theorem wilderSmooth_zero :
    ∀ {rest : List ℚ}, (∀ x ∈ rest, x = 0) → wilderSmooth 0 rest = 0
  | [], _ => rfl
  | x :: xs, h => by
    have hx : x = 0 := h x (List.mem_cons_self x xs)
    have ih := @wilderSmooth_zero xs fun y hy => h y (List.mem_cons_of_mem x hy)
    simp only [wilderSmooth, List.foldl_cons, hx] at *
    norm_num
    exact ih

theorem avgLossFinal_zero {closes : List ℚ}
    (h : ∀ d ∈ priceDeltas closes, 0 ≤ d) :
    avgLossFinal closes = 0 := by
  have hz := rsiLosses_all_zero h
  have hsum : ((rsiLosses closes).take 14).sum = 0 :=
    List.sum_eq_zero fun x hx => hz x (List.take_subset 14 _ hx)
  rw [avgLossFinal, hsum]
  norm_num
  exact wilderSmooth_zero fun x hx => hz x (List.drop_subset 14 _ hx)

/-- C7: series shorter than 15 closes yield no RSI; a series of at least 15
closes with no day-over-day decrease takes the `avg_loss == 0` branch and
yields exactly 100 regardless of gain magnitudes; otherwise the result is
100 - 100/(1+RS) with RS the ratio of the Wilder-smoothed averages, rounded
to 1 decimal. -/
theorem c7_rsi :
    (∀ closes : List ℚ, closes.length < 15 → calculate_rsi closes = none) ∧
    (∀ closes : List ℚ, 15 ≤ closes.length →
      (∀ d ∈ priceDeltas closes, 0 ≤ d) →
      calculate_rsi closes = some 100) ∧
    (∀ closes : List ℚ, 15 ≤ closes.length → avgLossFinal closes ≠ 0 →
      calculate_rsi closes =
        some (round1 (100 - 100 / (1 + avgGainFinal closes / avgLossFinal closes)))) := by
  refine ⟨?_, ?_, ?_⟩
  · intro closes h
    simp [calculate_rsi, h]
  · intro closes hlen hmono
    have hnl : ¬closes.length < 15 := not_lt.mpr hlen
    have hloss := avgLossFinal_zero hmono
    simp only [calculate_rsi, if_neg hnl, hloss, eq_self_iff_true, if_true]
    have : round1 100 = 100 := by norm_num [round1, roundHalfEven]
    rw [this]
  · intro closes hlen hloss
    have hnl : ¬closes.length < 15 := not_lt.mpr hlen
    simp only [calculate_rsi, if_neg hnl, if_neg hloss]

/-- Witness for C7: a 2-point series yields none; a flat 15-point series
(no decrease) yields exactly 100; a 15-point series with one down day takes
the general branch. -/
theorem c7_rsi_witness :
    calculate_rsi [1, 2] = none ∧
    calculate_rsi [5, 5, 5, 5, 5, 5, 5, 5, 5, 5, 5, 5, 5, 5, 5] = some 100 ∧
    calculate_rsi [2, 1, 1, 1, 1, 1, 1, 1, 1, 1, 1, 1, 1, 1, 1] =
      some (round1 (100 - 100 /
        (1 + avgGainFinal [2, 1, 1, 1, 1, 1, 1, 1, 1, 1, 1, 1, 1, 1, 1] /
          avgLossFinal [2, 1, 1, 1, 1, 1, 1, 1, 1, 1, 1, 1, 1, 1, 1]))) := by
  refine ⟨c7_rsi.1 [1, 2] (by norm_num), ?_, ?_⟩
  · refine c7_rsi.2.1 _ (by norm_num) ?_
    intro d hd
    have : priceDeltas [5, 5, 5, 5, 5, 5, 5, 5, 5, 5, 5, 5, 5, 5, (5 : ℚ)] =
        [0, 0, 0, 0, 0, 0, 0, 0, 0, 0, 0, 0, 0, 0] := by
      norm_num [priceDeltas, List.zipWith]
    rw [this] at hd
    simp only [List.mem_cons, List.not_mem_nil, or_false] at hd
    rcases hd with h | h | h | h | h | h | h | h | h | h | h | h | h | h <;>
      rw [h]
  · refine c7_rsi.2.2 _ (by norm_num) ?_
    have : avgLossFinal [2, 1, 1, 1, 1, 1, 1, 1, 1, 1, 1, 1, 1, 1, (1 : ℚ)] = 1/14 := by
      norm_num [avgLossFinal, rsiLosses, priceDeltas, List.zipWith, wilderSmooth]
    rw [this]
    norm_num

/-! ## System B: AI schedule generation (`src/routes/schedule.py`)

The parser state relevant to claims C6 and C10: calendar dates, times of
day, the date-header resolution, and the exact-match conflict check guarding
insertion of parsed blocks. -/

/-- A calendar date (`datetime.date`). -/
structure YDate where
  year : Int
  month : Nat
  day : Nat
  deriving Repr, DecidableEq

/-- A time of day at the minute precision used by the parser
(`datetime.time`). -/
structure Tod where
  hour : Nat
  minute : Nat
  deriving Repr, DecidableEq

/-- Gregorian leap-year rule, as implemented by Python `datetime`. -/
def isLeapYear (y : Int) : Bool :=
  y % 4 = 0 && (y % 100 != 0 || y % 400 = 0)

def daysInMonth (y : Int) (m : Nat) : Nat :=
  if m = 2 then (if isLeapYear y then 29 else 28)
  else if m = 4 ∨ m = 6 ∨ m = 9 ∨ m = 11 then 30
  else 31

/-- Whether `datetime(y, m, d)` succeeds. -/
def isValidYmd (y : Int) (m d : Nat) : Bool :=
  1 ≤ m && m ≤ 12 && 1 ≤ d && d ≤ daysInMonth y m

/-- Resolution of a parsed `=== M月D日 ... ===` header during AI-response
parsing (schedule.py:479-485): `datetime(start_date.year, month, day)`,
falling back to the generation window's start date when that raises. -/
def resolveDateHeader (start_date : YDate) (month day : Nat) : YDate :=
  if isValidYmd start_date.year month day then
    ⟨start_date.year, month, day⟩
  else start_date

/-- Day-of-year of a date (1-based). -/
def dayOfYear (dt : YDate) : Nat :=
  (List.range (dt.month - 1)).foldl
    (fun acc i => acc + daysInMonth dt.year (i + 1)) 0 + dt.day

/-- Proleptic Gregorian ordinal, as Python `date.toordinal`: day 1 is
0001-01-01. -/
def gregorianOrdinal (dt : YDate) : Int :=
  365 * (dt.year - 1) +
    ((dt.year - 1) / 4 - (dt.year - 1) / 100 + (dt.year - 1) / 400) +
    dayOfYear dt

/-- C10: a date header is always resolved within the generation window's
start year — to `(start_year, month, day)` when that is a valid date and to
the window start date otherwise — so in a week-mode window starting
2025-12-29 (spanning New Year), the header `=== 1月2日 ... ===` resolves to
2025-01-02: 365 days before the in-window date 2026-01-02 and 361 days
before the window start. -/
theorem c10_date_header_year_boundary :
    (∀ (sd : YDate) (m d : Nat),
      resolveDateHeader sd m d =
        (if isValidYmd sd.year m d then ⟨sd.year, m, d⟩ else sd) ∧
      (resolveDateHeader sd m d).year = sd.year) ∧
    (resolveDateHeader ⟨2025, 12, 29⟩ 1 2 = ⟨2025, 1, 2⟩ ∧
      gregorianOrdinal ⟨2026, 1, 2⟩ - gregorianOrdinal ⟨2025, 1, 2⟩ = 365 ∧
      gregorianOrdinal ⟨2025, 12, 29⟩ - gregorianOrdinal ⟨2025, 1, 2⟩ = 361) := by
  refine ⟨fun sd m d => ⟨rfl, ?_⟩, by decide⟩
  unfold resolveDateHeader
  split <;> rfl

/-- A persisted `Schedule` row, restricted to the columns the conflict check
consults (schedule.py:520-525). -/
structure SchedRow where
  userId : Nat
  date : YDate
  startTime : Tod
  endTime : Tod
  deriving Repr, DecidableEq

/-- A parsed AI time block after date grouping (schedule.py:506-514). -/
structure ParsedBlock where
  date : YDate
  startTime : Tod
  endTime : Tod
  deriving Repr, DecidableEq

/-- `Schedule.query.filter_by(user_id=..., date=..., start_time=...,
end_time=...).first()` (schedule.py:520-525): exact equality on all three
time fields, no range/overlap comparison. -/
def conflictExists (rows : List SchedRow) (uid : Nat) (b : ParsedBlock) : Bool :=
  rows.any fun r =>
    r.userId = uid && r.date = b.date && r.startTime = b.startTime &&
      r.endTime = b.endTime

/-- The insertion step for one parsed block (schedule.py:517-565): skip when
an exact match exists, otherwise add the new row for the user. -/
def insertParsedBlock (rows : List SchedRow) (uid : Nat) (b : ParsedBlock) :
    List SchedRow :=
  if conflictExists rows uid b then rows
  else rows ++ [⟨uid, b.date, b.startTime, b.endTime⟩]

/-- C6: a parsed block whose (date, start, end) triple exactly equals an
already-persisted row of the same user is skipped, while a block that
differs from every existing row in at least one of the three fields (or in
the owner) is inserted — the conflict check is exact-match, not overlap. -/
theorem c6_exact_match_conflict :
    (∀ (rows : List SchedRow) (uid : Nat) (b : ParsedBlock),
      (∃ r ∈ rows, r.userId = uid ∧ r.date = b.date ∧
        r.startTime = b.startTime ∧ r.endTime = b.endTime) →
      insertParsedBlock rows uid b = rows) ∧
    (∀ (rows : List SchedRow) (uid : Nat) (b : ParsedBlock),
      (∀ r ∈ rows, r.userId ≠ uid ∨ r.date ≠ b.date ∨
        r.startTime ≠ b.startTime ∨ r.endTime ≠ b.endTime) →
      insertParsedBlock rows uid b =
        rows ++ [⟨uid, b.date, b.startTime, b.endTime⟩]) := by
  constructor
  · intro rows uid b h
    have hc : conflictExists rows uid b = true := by
      simp only [conflictExists, List.any_eq_true]
      obtain ⟨r, hr, h1, h2, h3, h4⟩ := h
      exact ⟨r, hr, by simp [h1, h2, h3, h4]⟩
    simp [insertParsedBlock, hc]
  · intro rows uid b h
    have hc : conflictExists rows uid b = false := by
      simp only [conflictExists, List.any_eq_false]
      intro r hr
      rcases h r hr with h' | h' | h' | h' <;> simp [h']
    simp [insertParsedBlock, hc]

/-- Witness for C6: with one persisted row 10:00-11:00 on 2026-01-02, the
identical parsed block is skipped while the block starting one minute later
is inserted. -/
theorem c6_exact_match_conflict_witness :
    insertParsedBlock [⟨7, ⟨2026, 1, 2⟩, ⟨10, 0⟩, ⟨11, 0⟩⟩] 7
        ⟨⟨2026, 1, 2⟩, ⟨10, 0⟩, ⟨11, 0⟩⟩ =
      [⟨7, ⟨2026, 1, 2⟩, ⟨10, 0⟩, ⟨11, 0⟩⟩] ∧
    insertParsedBlock [⟨7, ⟨2026, 1, 2⟩, ⟨10, 0⟩, ⟨11, 0⟩⟩] 7
        ⟨⟨2026, 1, 2⟩, ⟨10, 1⟩, ⟨11, 0⟩⟩ =
      [⟨7, ⟨2026, 1, 2⟩, ⟨10, 0⟩, ⟨11, 0⟩⟩,
       ⟨7, ⟨2026, 1, 2⟩, ⟨10, 1⟩, ⟨11, 0⟩⟩] :=
  ⟨c6_exact_match_conflict.1 _ 7 _
      ⟨_, List.mem_singleton_self _, rfl, rfl, rfl, rfl⟩,
   c6_exact_match_conflict.2 _ 7 _ (by decide)⟩

/-! ## System B: ownership-scoped direct-by-id lookups (`src/routes/*.py`)

Every direct-by-id route uses the single pattern
`Model.query.filter_by(id=eid, user_id=current_user.id).first_or_404()`
(tasks.py:116 `edit_task`, habits.py:79 `checkin`, schedule.py:613
`feedback`, progress.py:80/153/241/285, reward.py:62/81/99,
fixed.py:84/139/158/274/318/337, summary.py:451/463, tasks.py:176/195).
`OwnedRow` reduces a row of any of these tables to the columns that pattern
consults plus an opaque payload. -/

structure OwnedRow where
  id : Nat
  userId : Nat
  payload : Nat
  deriving Repr, DecidableEq

/-- `filter_by(id=eid, user_id=uid).first_or_404()`; `none` models the
404 abort. -/
def firstOr404 (rows : List OwnedRow) (uid eid : Nat) : Option OwnedRow :=
  (rows.filter fun r => r.id = eid && r.userId = uid).head?

/-- A mutating direct-by-id route (the shape of `edit_task`,
tasks.py:112-171): 404 with no change when the scoped lookup aborts,
otherwise update the looked-up row (the row with the requested id owned by
the requester) and report success. -/
def editOwned (rows : List OwnedRow) (uid eid newPayload : Nat) :
    List OwnedRow × Bool :=
  match firstOr404 rows uid eid with
  | none => (rows, false)
  | some _ =>
    (rows.map fun r =>
      if r.id = eid && r.userId = uid then { r with payload := newPayload }
      else r,
     true)

/-- C2: a direct-by-id request for an entity owned by a different user
404s and mutates nothing; a returned row always belongs to the requester;
mutation never touches another user's rows; and the response is a function
of the requester's own rows only (independence from other users' records). -/
theorem c2_cross_user_isolation :
    (∀ (rows : List OwnedRow) (uid eid p : Nat),
      (∀ r ∈ rows, r.id = eid → r.userId ≠ uid) →
      firstOr404 rows uid eid = none ∧ editOwned rows uid eid p = (rows, false)) ∧
    (∀ (rows : List OwnedRow) (uid eid : Nat) (e : OwnedRow),
      firstOr404 rows uid eid = some e → e.userId = uid) ∧
    (∀ (rows : List OwnedRow) (uid eid p : Nat) (r : OwnedRow),
      r ∈ (editOwned rows uid eid p).1 → r ∈ rows ∨ r.userId = uid) ∧
    (∀ (rows : List OwnedRow) (uid eid : Nat),
      firstOr404 rows uid eid =
        firstOr404 (rows.filter fun r => r.userId = uid) uid eid) := by
  have hsome : ∀ (rows : List OwnedRow) (uid eid : Nat) (e : OwnedRow),
      firstOr404 rows uid eid = some e → e.id = eid ∧ e.userId = uid := by
    intro rows uid eid e h
    have hmem : e ∈ rows.filter fun r => r.id = eid && r.userId = uid := by
      rcases hl : rows.filter fun r => r.id = eid && r.userId = uid with _ | ⟨a, as⟩
      · rw [firstOr404, hl] at h; cases h
      · rw [firstOr404, hl] at h
        simp only [List.head?_cons, Option.some.injEq] at h
        subst h
        exact hl ▸ List.mem_cons_self a as
    have hp := List.of_mem_filter hmem
    simpa using hp
  refine ⟨?_, fun rows uid eid e h => (hsome rows uid eid e h).2, ?_, ?_⟩
  · intro rows uid eid p h
    have hf : (rows.filter fun r => r.id = eid && r.userId = uid) = [] := by
      rw [List.filter_eq_nil_iff]
      intro r hr
      simp only [Bool.and_eq_true, decide_eq_true_eq, not_and]
      exact fun hid => h r hr hid
    have h404 : firstOr404 rows uid eid = none := by
      rw [firstOr404, hf]; rfl
    exact ⟨h404, by rw [editOwned, h404]⟩
  · intro rows uid eid p r hr
    rw [editOwned] at hr
    rcases hcase : firstOr404 rows uid eid with _ | e
    · rw [hcase] at hr; exact Or.inl hr
    · rw [hcase] at hr
      simp only [List.mem_map] at hr
      obtain ⟨orig, horig, rfl⟩ := hr
      by_cases hpred : (orig.id = eid && orig.userId = uid) = true
      · simp only [hpred, if_true]
        simp only [Bool.and_eq_true, decide_eq_true_eq] at hpred
        exact Or.inr hpred.2
      · simp only [hpred, if_false]
        exact Or.inl horig
  · intro rows uid eid
    rw [firstOr404, firstOr404, List.filter_filter]
    congr 1
    apply List.filter_congr
    intro r _
    cases h1 : decide (r.id = eid) <;> cases h2 : decide (r.userId = uid) <;> simp [h1, h2]

/-- Witness for C2: user 2 requesting the entity with id 1 owned by user 1
gets a 404 and the row set is unchanged. -/
theorem c2_cross_user_isolation_witness :
    firstOr404 [⟨1, 1, 42⟩] 2 1 = none ∧
    editOwned [⟨1, 1, 42⟩] 2 1 99 = ([⟨1, 1, 42⟩], false) :=
  c2_cross_user_isolation.1 [⟨1, 1, 42⟩] 2 1 99 (by decide)

/-! ## System B: the points economy (`src/routes/progress.py`)

The per-user state touched by the points-based check-in, undo and redeem
routes.  `points_value` (models.py:265) is an integer column that no code
path in the repository ever assigns, so every habit carries its default 10;
the invariant theorem takes the corresponding non-negativity as a
hypothesis.  `points_required` is form-controlled (progress.py:223) and is
left fully unconstrained. -/

/-- A habit as consulted by the points routes. -/
structure PHabit where
  id : Nat
  pointsValue : Int
  deriving Repr, DecidableEq

/-- A points-based reward row (models.py:184-201). -/
structure PReward where
  id : Nat
  pointsRequired : Int
  isRedeemed : Bool
  deriving Repr, DecidableEq

/-- One `PointsHistory` row (models.py:221-237). -/
structure PHistoryEntry where
  pointsChange : Int
  balanceAfter : Int
  deriving Repr, DecidableEq

/-- The state of one user's points economy: `User.total_points`, the ledger
(most recently created entry first), the (habit, day) check-in records, and
the reward rows. -/
structure PState where
  totalPoints : Int
  history : List PHistoryEntry
  checkins : List (Nat × Nat)
  rewards : List PReward
  deriving Repr, DecidableEq

/-- `habit_checkin` (progress.py:76-146): 404 on an unknown habit id;
reject when today's check-in already exists; otherwise credit
`points_value`, record the check-in and append a ledger row whose
`balance_after` is the balance after the credit. -/
def habit_checkin (habits : List PHabit) (s : PState) (habitId day : Nat) :
    PState :=
  match habits.find? fun h => h.id = habitId with
  | none => s
  | some habit =>
    if (habitId, day) ∈ s.checkins then s
    else
      let total := s.totalPoints + habit.pointsValue
      { s with
        totalPoints := total
        history := ⟨habit.pointsValue, total⟩ :: s.history
        checkins := (habitId, day) :: s.checkins }

/-- `habit_undo` (progress.py:149-212): 404 on an unknown habit id; reject
when there is no check-in today or the balance is below `points_value`;
otherwise debit the points, delete the check-in and append a negative
ledger row. -/
def habit_undo (habits : List PHabit) (s : PState) (habitId day : Nat) :
    PState :=
  match habits.find? fun h => h.id = habitId with
  | none => s
  | some habit =>
    if (habitId, day) ∉ s.checkins then s
    else if s.totalPoints < habit.pointsValue then s
    else
      let total := s.totalPoints - habit.pointsValue
      { s with
        totalPoints := total
        history := ⟨-habit.pointsValue, total⟩ :: s.history
        checkins := s.checkins.erase (habitId, day) }

/-- `redeem_reward` (progress.py:237-278): 404 on an unknown reward id;
reject when the reward is already redeemed or the balance is below
`points_required`; otherwise debit the cost, flip the redeemed flag and
append a negative ledger row. -/
def redeem_reward (s : PState) (rewardId : Nat) : PState :=
  match s.rewards.find? fun r => r.id = rewardId with
  | none => s
  | some reward =>
    if reward.isRedeemed then s
    else if s.totalPoints < reward.pointsRequired then s
    else
      let total := s.totalPoints - reward.pointsRequired
      { s with
        totalPoints := total
        history := ⟨-reward.pointsRequired, total⟩ :: s.history
        rewards := s.rewards.map fun r =>
          if r.id = rewardId then { r with isRedeemed := true } else r }

/-- The three operations of claim C1; the day argument stands for
`date.today()` at request time. -/
inductive POp
  | checkin (habitId day : Nat)
  | undo (habitId day : Nat)
  | redeem (rewardId : Nat)
  deriving Repr, DecidableEq

def pStep (habits : List PHabit) (s : PState) : POp → PState
  | .checkin h d => habit_checkin habits s h d
  | .undo h d => habit_undo habits s h d
  | .redeem r => redeem_reward s r

/-- A fresh user's state: `total_points` defaults to 0 (models.py:18), no
ledger rows and no check-ins; the reward catalog is a parameter. -/
def pInit (rewards : List PReward) : PState :=
  { totalPoints := 0, history := [], checkins := [], rewards := rewards }

/-- Run a sequence of points operations from the fresh state. -/
def pRun (habits : List PHabit) (rewards : List PReward) (ops : List POp) :
    PState :=
  ops.foldl (pStep habits) (pInit rewards)

/-- The C1 invariant: the most recently created ledger row (if any) snapshots
the current balance, and the balance is non-negative. -/
def pInv (s : PState) : Prop :=
  (∀ e ∈ s.history.head?, e.balanceAfter = s.totalPoints) ∧ 0 ≤ s.totalPoints

theorem pStep_preserves {habits : List PHabit}
    (hpv : ∀ h ∈ habits, 0 ≤ h.pointsValue) {s : PState} (hs : pInv s) :
    ∀ op : POp, pInv (pStep habits s op) := by
  intro op
  cases op with
  | checkin habitId day =>
    simp only [pStep, habit_checkin]
    rcases hfind : habits.find? fun h => h.id = habitId with _ | habit
    · rw [hfind]; exact hs
    · rw [hfind]
      by_cases hmem : (habitId, day) ∈ s.checkins
      · simp only [if_pos hmem]; exact hs
      · simp only [if_neg hmem]
        refine ⟨?_, ?_⟩
        · intro e he
          simp only [List.head?_cons, Option.mem_def, Option.some.injEq] at he
          rw [← he]
        · have hh : habit ∈ habits := List.mem_of_find?_eq_some hfind
          have h1 := hpv habit hh
          have h2 := hs.2
          simp only
          omega
  | undo habitId day =>
    simp only [pStep, habit_undo]
    rcases hfind : habits.find? fun h => h.id = habitId with _ | habit
    · rw [hfind]; exact hs
    · rw [hfind]
      by_cases hmem : (habitId, day) ∉ s.checkins
      · simp only [if_pos hmem]; exact hs
      · simp only [if_neg hmem]
        by_cases hbal : s.totalPoints < habit.pointsValue
        · simp only [if_pos hbal]; exact hs
        · simp only [if_neg hbal]
          refine ⟨?_, by simp only; omega⟩
          intro e he
          simp only [List.head?_cons, Option.mem_def, Option.some.injEq] at he
          rw [← he]
  | redeem rewardId =>
    simp only [pStep, redeem_reward]
    rcases hfind : s.rewards.find? fun r => r.id = rewardId with _ | reward
    · rw [hfind]; exact hs
    · rw [hfind]
      by_cases hred : reward.isRedeemed
      · simp only [if_pos hred]; exact hs
      · simp only [hred, Bool.false_eq_true, if_false]
        by_cases hbal : s.totalPoints < reward.pointsRequired
        · simp only [if_pos hbal]; exact hs
        · simp only [if_neg hbal]
          refine ⟨?_, by simp only; omega⟩
          intro e he
          simp only [List.head?_cons, Option.mem_def, Option.some.injEq] at he
          rw [← he]

theorem pRun_inv {habits : List PHabit}
    (hpv : ∀ h ∈ habits, 0 ≤ h.pointsValue) :
    ∀ (ops : List POp) (s : PState), pInv s →
      pInv (ops.foldl (pStep habits) s)
  | [], _, hs => hs
  | op :: ops, s, hs =>
    pRun_inv hpv ops (pStep habits s op) (pStep_preserves hpv hs op)

/-- C1: for every habit catalog (all of whose `points_value` are
non-negative — in the repository the column is never assigned and always
holds its default 10), every reward catalog, and every sequence of
check-in/undo/redeem operations on one user starting from the fresh state,
after the sequence the most recently created `PointsHistory` row's
`balance_after` equals `User.total_points`, and `total_points` is
non-negative.  Since the sequence is arbitrary, this holds after every
prefix, i.e. after each committed operation. -/
theorem c1_points_ledger_invariant :
    ∀ (habits : List PHabit) (rewards : List PReward) (ops : List POp),
      (∀ h ∈ habits, 0 ≤ h.pointsValue) →
      (∀ e ∈ (pRun habits rewards ops).history.head?,
        e.balanceAfter = (pRun habits rewards ops).totalPoints) ∧
      0 ≤ (pRun habits rewards ops).totalPoints := by
  intro habits rewards ops hpv
  refine pRun_inv hpv ops (pInit rewards) ⟨?_, le_refl 0⟩
  intro e he
  simp [pInit] at he

/-- Witness for C1: a habit worth 10 points and a 5-point reward, with the
sequence check-in, redeem, undo (the undo is rejected for insufficient
balance: 5 < 10). -/
theorem c1_points_ledger_invariant_witness :
    0 ≤ (pRun [⟨1, 10⟩] [⟨1, 5, false⟩]
          [.checkin 1 0, .redeem 1, .undo 1 0]).totalPoints :=
  (c1_points_ledger_invariant [⟨1, 10⟩] [⟨1, 5, false⟩]
    [.checkin 1 0, .redeem 1, .undo 1 0] (by decide)).2

/-! ## System B: the legacy rewards route (`src/routes/reward.py`) against
the declared model (`src/models.py`)

`check_achievements` (reward.py:141-174) is written against an hours-based
`Reward` shape (`is_achieved`, `category`, `target_hours`, `achieved_at`)
and an hours-carrying `RewardProgress` (`total_hours`), but `models.py`
declares the points-based shape only.  SQLAlchemy resolves every
`filter_by`/attribute access against the declared columns and raises when a
name is missing, so the very first query of the route aborts the request. -/

/-- The columns declared on `Reward` (models.py:184-201). -/
def rewardModelColumns : List String :=
  ["id", "user_id", "title", "description", "points_required", "icon",
   "is_redeemed", "redeemed_at", "created_at"]

/-- The columns declared on `RewardProgress` (models.py:204-215). -/
def rewardProgressModelColumns : List String :=
  ["id", "user_id", "category", "total_points", "checkin_count",
   "last_updated"]

/-- The `Reward` attributes `check_achievements` dereferences:
`is_achieved` in the initial `filter_by` (reward.py:146-149), then
`reward.category` (reward.py:157), `reward.target_hours` (reward.py:160),
and the assignments to `is_achieved`/`achieved_at` (reward.py:161-162). -/
def checkAchievementsRewardAttrs : List String :=
  ["is_achieved", "category", "target_hours", "achieved_at"]

/-- Python/SQLAlchemy attribute resolution against a model's declared
columns: `getattr` (and hence `filter_by`) succeeds exactly when the name
is declared. -/
def resolveModelAttr (columns : List String) (attr : String) : Option String :=
  if attr ∈ columns then some attr else none

/-- The first statement of `check_achievements`,
`Reward.query.filter_by(user_id=current_user.id, is_achieved=False)`
(reward.py:146-149): both keyword names are resolved against the declared
`Reward` columns, and the query raises — aborting the request before any
reward is scanned — as soon as one is missing. -/
def checkAchievementsFirstQuery : Except String (List String) :=
  match resolveModelAttr rewardModelColumns "user_id",
        resolveModelAttr rewardModelColumns "is_achieved" with
  | some a, some b => .ok [a, b]
  | _, _ => .error "Reward has no attribute is_achieved"

/-- C3 (code-bug evidence): the initial query of the legacy
`check_achievements` route raises, because none of the four `Reward`
attributes the route uses — nor `RewardProgress.total_hours` — is declared
by the model; so the route aborts with an error on every request instead of
scanning and flipping achievement flags. -/
theorem c3_check_achievements_crashes :
    checkAchievementsFirstQuery = .error "Reward has no attribute is_achieved" ∧
    (checkAchievementsRewardAttrs.map
        (resolveModelAttr rewardModelColumns) = [none, none, none, none]) ∧
    resolveModelAttr rewardProgressModelColumns "total_hours" = none := by
  refine ⟨rfl, by decide, by decide⟩

end TimeManage
